import Mathlib

/-!
Shallow embedding of the `image_batch_processor` core (engine factory, retry
loop, batch aggregation, five-stage pipeline) together with proofs checking
the natural-language specification against it.

Python `pathlib` filename operations (`suffix`, `stem`) are modelled on
character lists; the filesystem is modelled as a map from path strings to
`PathNode` values; Python exceptions become `Except` results; `float` time
values become `Rat`; engine behaviour (which attempts of `extract_text`
raise, and whether the output write raises) is an explicit environment
parameter, indexed by attempt number.
-/

/-! ## String helpers (models of Python `str.lower`, `str.startswith`, ordering) -/

/-- Model of Python `str.lower` on a single character (ASCII range, which is
the range exercised by the extension lists in the source). -/
def lowerChar (c : Char) : Char :=
  if c.toNat ≥ 65 ∧ c.toNat ≤ 90 then Char.ofNat (c.toNat + 32) else c

/-- Model of Python `str.lower`. -/
def lowerStr (s : String) : String :=
  String.mk (s.toList.map lowerChar)

/-- Model of Python `str.startswith('.')`. -/
def startsWithDot (s : String) : Bool :=
  match s.toList with
  | [] => false
  | c :: _ => c = '.'

/-- Lexicographic comparison of character lists by code point: the order
Python uses when sorting strings. -/
def lexLe : List Char → List Char → Bool
  | [], _ => true
  | _ :: _, [] => false
  | a :: as, b :: bs =>
    if a.toNat < b.toNat then true
    else if b.toNat < a.toNat then false
    else lexLe as bs

/-- String comparison by code points, as used by Python `sorted`. -/
def nameLe (a b : String) : Bool := lexLe a.toList b.toList

theorem lexLe_cons_eq (x y : Char) (xs ys : List Char) :
    lexLe (x :: xs) (y :: ys) =
      if x.toNat < y.toNat then true
      else if y.toNat < x.toNat then false
      else lexLe xs ys := rfl

theorem lexLe_total (a b : List Char) : lexLe a b = true ∨ lexLe b a = true := by
  induction a generalizing b with
  | nil => left; rfl
  | cons x xs ih =>
    cases b with
    | nil => right; rfl
    | cons y ys =>
      rcases Nat.lt_trichotomy x.toNat y.toNat with h | h | h
      · left; rw [lexLe_cons_eq, if_pos h]
      · rcases ih ys with h2 | h2
        · left
          rw [lexLe_cons_eq, if_neg (by omega), if_neg (by omega)]
          exact h2
        · right
          rw [lexLe_cons_eq, if_neg (by omega), if_neg (by omega)]
          exact h2
      · right; rw [lexLe_cons_eq, if_pos h]

theorem lexLe_trans (a b c : List Char) (hab : lexLe a b = true)
    (hbc : lexLe b c = true) : lexLe a c = true := by
  induction a generalizing b c with
  | nil => rfl
  | cons x xs ih =>
    cases b with
    | nil => simp [lexLe] at hab
    | cons y ys =>
      cases c with
      | nil => simp [lexLe] at hbc
      | cons z zs =>
        rcases Nat.lt_trichotomy x.toNat y.toNat with h1 | h1 | h1
        · rcases Nat.lt_trichotomy y.toNat z.toNat with h2 | h2 | h2
          · rw [lexLe_cons_eq, if_pos (by omega)]
          · rw [lexLe_cons_eq, if_pos (by omega)]
          · rw [lexLe_cons_eq, if_neg (by omega), if_pos (by omega)] at hbc
            exact absurd hbc (by simp)
        · rcases Nat.lt_trichotomy y.toNat z.toNat with h2 | h2 | h2
          · rw [lexLe_cons_eq, if_pos (by omega)]
          · rw [lexLe_cons_eq, if_neg (by omega), if_neg (by omega)] at hab hbc ⊢
            exact ih ys zs hab hbc
          · rw [lexLe_cons_eq, if_neg (by omega), if_pos (by omega)] at hbc
            exact absurd hbc (by simp)
        · rw [lexLe_cons_eq, if_neg (by omega), if_pos (by omega)] at hab
          exact absurd hab (by simp)

/-! ## Filename suffix and stem (models of `pathlib.PurePath.suffix` / `.stem`) -/

/-- Index of the last occurrence of `'.'` in a character list, if any
(model of Python `str.rfind('.')` restricted to a found result). -/
def rfindDotIdx : List Char → Option Nat
  | [] => none
  | c :: rest =>
    match rfindDotIdx rest with
    | some i => some (i + 1)
    | none => if c = '.' then some 0 else none

/-- Characters of `pathlib`'s `stem`: everything before the final dot, when
that dot is neither the first nor the last character; otherwise the whole
name. -/
def stemChars (l : List Char) : List Char :=
  match rfindDotIdx l with
  | some i => if 0 < i ∧ i + 1 < l.length then l.take i else l
  | none => l

/-- Characters of `pathlib`'s `suffix`: the final dot and everything after
it, when that dot is neither the first nor the last character; otherwise
empty. -/
def suffixChars (l : List Char) : List Char :=
  match rfindDotIdx l with
  | some i => if 0 < i ∧ i + 1 < l.length then l.drop i else []
  | none => []

/-- Model of `pathlib.PurePath.stem` on a file name. -/
def pathStem (name : String) : String := String.mk (stemChars name.toList)

/-- Model of `pathlib.PurePath.suffix` on a file name. -/
def pathSuffix (name : String) : String := String.mk (suffixChars name.toList)

theorem rfindDotIdx_of_no_dot (l : List Char) (h : '.' ∉ l) :
    rfindDotIdx l = none := by
  induction l with
  | nil => rfl
  | cons c rest ih =>
    simp only [List.mem_cons, not_or] at h
    rw [rfindDotIdx, ih h.2, if_neg (fun hc => h.1 hc.symm)]

theorem rfindDotIdx_append_dot (S e : List Char) (he : '.' ∉ e) :
    rfindDotIdx (S ++ '.' :: e) = some S.length := by
  induction S with
  | nil => simp [rfindDotIdx, rfindDotIdx_of_no_dot e he]
  | cons c rest ih => simp [rfindDotIdx, ih]

theorem stemChars_append_dot (S e : List Char) (hS : S ≠ []) (he2 : e ≠ [])
    (he : '.' ∉ e) : stemChars (S ++ '.' :: e) = S := by
  have hfind := rfindDotIdx_append_dot S e he
  have hlen : (S ++ '.' :: e).length = S.length + 1 + e.length := by
    simp [List.length_append]; omega
  have hpos : 0 < S.length := List.length_pos.mpr hS
  have hepos : 0 < e.length := List.length_pos.mpr he2
  simp only [stemChars, hfind]
  rw [if_pos ⟨hpos, by omega⟩]
  simp [List.take_append]

/-! ## Filesystem model and `utils/file_utils.py` -/

/-- A filesystem node: either a regular file or a directory with named
children. -/
inductive PathNode where
  | file : PathNode
  | dir : List (String × PathNode) → PathNode

/-- Model of `pathlib.Path.is_file`. -/
def isFile : PathNode → Bool
  | .file => true
  | .dir _ => false

/-- A filesystem: a map from path strings to nodes (`none` means the path
does not exist). -/
def FileSystem : Type := String → Option PathNode

/-- Model of `discover_images` from `utils/file_utils.py`: validates the
directory, keeps the regular files directly inside it whose lower-cased
extension is in the (lower-cased) supported list, and returns their names
sorted. -/
def discover_images (fs : FileSystem) (directory : String)
    (supported_extensions : List String) : Except String (List String) :=
  match fs directory with
  | none => .error ("Directory does not exist: " ++ directory)
  | some .file => .error ("Path is not a directory: " ++ directory)
  | some (.dir children) =>
    let normalized_extensions := supported_extensions.map lowerStr
    let image_files := children.filter
      (fun c => isFile c.2 && normalized_extensions.contains (lowerStr (pathSuffix c.1)))
    .ok (List.insertionSort (fun a b => nameLe a b = true) (image_files.map Prod.fst))

/-- Model of `generate_output_filename` from `utils/file_utils.py`. -/
def generate_output_filename (image_name : String)
    (output_extension : String := ".txt") : String :=
  let ext := if startsWithDot output_extension then output_extension
             else "." ++ output_extension
  pathStem image_name ++ ext

/-- Model of `ensure_output_directory` from `utils/file_utils.py`: fails
only when a non-directory occupies the output path; creating a missing
directory is a side effect that always succeeds in the model. -/
def ensure_output_directory (fs : FileSystem) (output_dir : String) :
    Except String Unit :=
  match fs output_dir with
  | some .file => .error ("Path exists but is not a directory: " ++ output_dir)
  | _ => .ok ()

/-! ## Configuration models (`config/settings.py`) -/

/-- Fields of `DoclingConfig`. -/
structure DoclingConfigData where
  model_path : Option String := none
  use_gpu : Bool := false
  batch_size : Nat := 1
  ocr_enabled : Bool := true
deriving DecidableEq

/-- Fields of `LLMConfig`. -/
structure LLMConfigData where
  model_name : String
  temperature : Rat := 0
  max_tokens : Nat := 4096
  api_key : Option String := none
  base_url : Option String := none
deriving DecidableEq

/-- Fields of `APIConfig`. -/
structure APIConfigData where
  api_url : String
  api_key : String
  timeout : Nat := 30
  max_retries : Nat := 3
  verify_ssl : Bool := true
deriving DecidableEq

/-- Fields of `PassthroughConfig` (the Python class declares none). -/
structure PassthroughConfigData where
deriving DecidableEq

/-- The `EngineConfig` union: one variant per concrete config class. -/
inductive EngineConfig where
  | docling : DoclingConfigData → EngineConfig
  | llm : LLMConfigData → EngineConfig
  | api : APIConfigData → EngineConfig
  | passthrough : PassthroughConfigData → EngineConfig
deriving DecidableEq

/-- Model of Python `type(config).__name__` for an `EngineConfig` value. -/
def EngineConfig.typeName : EngineConfig → String
  | .docling _ => "DoclingConfig"
  | .llm _ => "LLMConfig"
  | .api _ => "APIConfig"
  | .passthrough _ => "PassthroughConfig"

/-! ## Engines and the factory (`engines/*.py`, `core/factory.py`) -/

/-- An engine instance: the variant constructed by the factory, holding the
configuration value it was given. -/
inductive Engine where
  | doclingEngine : EngineConfig → Engine
  | llmEngine : EngineConfig → Engine
  | apiEngine : EngineConfig → Engine
  | passthroughEngine : EngineConfig → Engine
deriving DecidableEq

/-- The configuration stored inside an engine instance. -/
def Engine.config : Engine → EngineConfig
  | .doclingEngine c => c
  | .llmEngine c => c
  | .apiEngine c => c
  | .passthroughEngine c => c

/-- Errors raised by `EngineFactory.create_engine` (Python `ValueError`s),
kept structured so the data each message carries is explicit. -/
inductive FactoryError where
  | unsupportedType : String → List String → FactoryError
  | configMismatch : (engine_type : String) → (required : String) →
      (got : String) → FactoryError
deriving DecidableEq

/-- Keys of `EngineFactory._ENGINE_REGISTRY`, in declaration order; also the
result of `get_supported_engines`. -/
def supportedEngineTypes : List String := ["docling", "llm", "api", "passthrough"]

/-- Model of `EngineFactory.create_engine`: rejects unregistered tags with
an error naming the tag and the supported list, rejects a config whose
runtime class name differs from the one the tag requires, and otherwise
constructs the engine variant for the tag around the given config. -/
def create_engine (engine_type : String) (config : EngineConfig) :
    Except FactoryError Engine :=
  if supportedEngineTypes.contains engine_type then
    if engine_type = "docling" then
      if config.typeName ≠ "DoclingConfig" then
        .error (.configMismatch "docling" "DoclingConfig" config.typeName)
      else .ok (.doclingEngine config)
    else if engine_type = "llm" then
      if config.typeName ≠ "LLMConfig" then
        .error (.configMismatch "llm" "LLMConfig" config.typeName)
      else .ok (.llmEngine config)
    else if engine_type = "api" then
      if config.typeName ≠ "APIConfig" then
        .error (.configMismatch "api" "APIConfig" config.typeName)
      else .ok (.apiEngine config)
    else if engine_type = "passthrough" then
      if config.typeName ≠ "PassthroughConfig" then
        .error (.configMismatch "passthrough" "PassthroughConfig" config.typeName)
      else .ok (.passthroughEngine config)
    else
      .error (.unsupportedType engine_type supportedEngineTypes)
  else
    .error (.unsupportedType engine_type supportedEngineTypes)

/-- The config class name `create_engine` requires for a recognized tag
(the table implicit in the factory's four mismatch checks). -/
def requiredConfigName (engine_type : String) : String :=
  if engine_type = "docling" then "DoclingConfig"
  else if engine_type = "llm" then "LLMConfig"
  else if engine_type = "api" then "APIConfig"
  else if engine_type = "passthrough" then "PassthroughConfig"
  else ""

/-! ## Result models (`core/models.py`) -/

/-- Result of processing a single image. -/
structure ProcessingResult where
  image_path : String
  success : Bool
  output_path : Option String := none
  error : Option String := none
  attempts : Nat := 1
  processing_time : Rat := 0
deriving DecidableEq

/-- Summary of batch processing results. -/
structure BatchReport where
  total_images : Nat
  successful : Nat
  failed : Nat
  processing_time : Rat
  results : List ProcessingResult
deriving DecidableEq

/-- Model of `BatchReport.success_rate`. -/
def BatchReport.success_rate (r : BatchReport) : Rat :=
  if r.total_images = 0 then 0
  else (r.successful : Rat) / (r.total_images : Rat)

/-! ## The retry loop (`BatchProcessor.process_single_image`)

The engine and the filesystem are an environment: `extract n` is what
`engine.extract_text` does on attempt `n` (extracted text, or the raised
error's message), and `save n text` is what `_save_text` does on attempt
`n` (the output path written, or the raised error's message). Either kind
of failure lands in an `except` branch of the Python loop, records the
error and retries. -/

/-- Outcome of the Python `for attempt in range(1, max_retries + 1)` loop. -/
inductive LoopOutcome where
  | success : (attempt : Nat) → (output_path : String) → LoopOutcome
  | exhausted : (last_error : Option String) → LoopOutcome
deriving DecidableEq

/-- The retry loop itself: `remaining` attempts left, the current attempt
number, and the `last_error` accumulator. -/
def attemptLoop (extract : Nat → Except String String)
    (save : Nat → String → Except String String) :
    Nat → Nat → Option String → LoopOutcome
  | 0, _, last_error => .exhausted last_error
  | remaining + 1, attempt, _last_error =>
    match extract attempt with
    | .ok text =>
      match save attempt text with
      | .ok output_path => .success attempt output_path
      | .error e => attemptLoop extract save remaining (attempt + 1) (some e)
    | .error e => attemptLoop extract save remaining (attempt + 1) (some e)

/-- Model of `BatchProcessor.process_single_image`. `elapsed` stands for
the measured wall-clock duration of this item (untracked by the claims). -/
def process_single_image (extract : Nat → Except String String)
    (save : Nat → String → Except String String) (max_retries : Nat)
    (image_path : String) (elapsed : Rat) : ProcessingResult :=
  match attemptLoop extract save max_retries 1 none with
  | .success attempt output_path =>
    { image_path := image_path
      success := true
      output_path := some output_path
      error := none
      attempts := attempt
      processing_time := elapsed }
  | .exhausted last_error =>
    { image_path := image_path
      success := false
      output_path := none
      error := some (match last_error with | some e => e | none => "Unknown error")
      attempts := max_retries
      processing_time := elapsed }

/-! ## Batch processing (`BatchProcessor.process_batch`) -/

/-- Per-image accumulation step of the `process_batch` loop: append the
result and bump the matching counter. -/
def batchStep (extract : String → Nat → Except String String)
    (save : String → Nat → String → Except String String)
    (itemTime : String → Rat) (max_retries : Nat)
    (acc : List ProcessingResult × Nat × Nat) (image : String) :
    List ProcessingResult × Nat × Nat :=
  let result := process_single_image (extract image) (save image) max_retries
    image (itemTime image)
  (acc.1 ++ [result],
   if result.success then acc.2.1 + 1 else acc.2.1,
   if result.success then acc.2.2 else acc.2.2 + 1)

/-- Model of `BatchProcessor.process_batch`: ensure the output directory,
discover images, process each in order, and assemble the report around the
wall-clock duration `batchTime`. -/
def process_batch (extract : String → Nat → Except String String)
    (save : String → Nat → String → Except String String)
    (itemTime : String → Rat) (batchTime : Rat) (max_retries : Nat)
    (supported_extensions : List String) (fs : FileSystem)
    (output_dir image_dir : String) : Except String BatchReport :=
  match ensure_output_directory fs output_dir with
  | .error e => .error e
  | .ok _ =>
    match discover_images fs image_dir supported_extensions with
    | .error e => .error e
    | .ok image_files =>
      let acc := image_files.foldl (batchStep extract save itemTime max_retries) ([], 0, 0)
      .ok
        { total_images := image_files.length
          successful := acc.2.1
          failed := acc.2.2
          processing_time := batchTime
          results := acc.1 }

/-! ## Pipeline flow (`flow/state.py`, `flow/batch_flow.py`) -/

/-- The default extension list used by the flow (`batch_flow.py` lines 85
and 155) and by `BatchProcessor.__init__`. -/
def defaultExtensions : List String := [".jpg", ".jpeg", ".png", ".tiff", ".bmp"]

/-- Model of `BatchProcessorState`. The raw `engine_config` dictionary is
not carried here: its conversion to a typed config is part of the flow
environment below. -/
structure FlowState where
  image_dir : String := ""
  output_dir : String := ""
  engine_type : String := "docling"
  total_images : Nat := 0
  processed_images : Nat := 0
  successful : Nat := 0
  failed : Nat := 0
  results : List ProcessingResult := []
deriving DecidableEq

/-- Errors that abort a pipeline run, kept structured. The `validation*`
constructors are the `ValidationError`s of `initialize_workflow`;
`configuration` covers `ConfigurationError`; `uncaught` models a Python
exception escaping a later stage. -/
inductive FlowError where
  | validationDirNotExist : String → FlowError
  | validationNotADir : String → FlowError
  | validationBadEngineType : String → List String → FlowError
  | validationDiscoverFailed : String → FlowError
  | validationNoImages : String → FlowError
  | validationOutputNotDir : String → FlowError
  | configuration : String → FlowError
  | uncaught : String → FlowError
deriving DecidableEq

/-- True exactly for the `ValidationError` constructors. -/
def FlowError.isValidation : FlowError → Bool
  | .validationDirNotExist _ => true
  | .validationNotADir _ => true
  | .validationBadEngineType _ _ => true
  | .validationDiscoverFailed _ => true
  | .validationNoImages _ => true
  | .validationOutputNotDir _ => true
  | .configuration _ => false
  | .uncaught _ => false

/-- Environment of one pipeline run: the filesystem, the engine/write
behaviour, the per-item and whole-batch wall-clock durations, the result of
converting the raw config dictionary (`_create_engine_config`), and the
result of `engine.validate_config()`. -/
structure FlowEnv where
  fs : FileSystem
  extract : String → Nat → Except String String
  save : String → Nat → String → Except String String
  itemTime : String → Rat
  batchTime : Rat
  mkConfig : Except String EngineConfig
  validateRes : Except String Unit

/-- Model of the `initialize_workflow` stage: the four validations, in the
order the Python code performs them. -/
def init_workflow (fs : FileSystem) (st : FlowState) : Except FlowError Unit :=
  match fs st.image_dir with
  | none => .error (.validationDirNotExist st.image_dir)
  | some .file => .error (.validationNotADir st.image_dir)
  | some (.dir _) =>
    if supportedEngineTypes.contains st.engine_type then
      match discover_images fs st.image_dir defaultExtensions with
      | .error e => .error (.validationDiscoverFailed e)
      | .ok images =>
        if images.length = 0 then .error (.validationNoImages st.image_dir)
        else
          match fs st.output_dir with
          | some .file => .error (.validationOutputNotDir st.output_dir)
          | _ => .ok ()
    else .error (.validationBadEngineType st.engine_type supportedEngineTypes)

/-- Model of the `create_engine` stage: convert the raw config payload,
invoke the factory, then `validate_config`, each failure becoming a
`ConfigurationError`. -/
def create_engine_stage (mkConfig : Except String EngineConfig)
    (validateRes : Except String Unit) (engine_type : String) :
    Except FlowError Engine :=
  match mkConfig with
  | .error e => .error (.configuration ("Failed to create " ++ engine_type ++ " config: " ++ e))
  | .ok config =>
    match create_engine engine_type config with
    | .error _ => .error (.configuration "Failed to create engine")
    | .ok engine =>
      match validateRes with
      | .error e => .error (.configuration ("Engine validation failed for " ++ engine_type ++ ": " ++ e))
      | .ok _ => .ok engine

/-- Model of the `discover_images` stage: re-discover and record the count
into state. -/
def discover_stage (fs : FileSystem) (st : FlowState) : Except String FlowState :=
  (discover_images fs st.image_dir defaultExtensions).map
    (fun images => { st with total_images := images.length })

/-- Model of the `process_images` stage: copy the batch report's counters
and per-item results into state. The report's own wall-clock
`processing_time` is not copied. -/
def process_images_stage (st : FlowState) (batch_report : BatchReport) : FlowState :=
  { st with
    processed_images := batch_report.total_images
    successful := batch_report.successful
    failed := batch_report.failed
    results := batch_report.results }

/-- Model of the `generate_report` stage: rebuild a `BatchReport` from
state, its `processing_time` being the sum of the per-item times. -/
def generate_report (st : FlowState) : BatchReport :=
  { total_images := st.total_images
    successful := st.successful
    failed := st.failed
    processing_time := (st.results.map (fun r => r.processing_time)).sum
    results := st.results }

/-- One end-to-end pipeline run: the five stages in sequence, aborting on
the first stage error. The flow hard-codes `max_retries = 3` when building
the `BatchProcessor`. -/
def run_pipeline (env : FlowEnv) (st : FlowState) : Except FlowError BatchReport :=
  match init_workflow env.fs st with
  | .error e => .error e
  | .ok _ =>
    match create_engine_stage env.mkConfig env.validateRes st.engine_type with
    | .error e => .error e
    | .ok _engine =>
      match discover_stage env.fs st with
      | .error e => .error (.uncaught e)
      | .ok st1 =>
        match process_batch env.extract env.save env.itemTime env.batchTime 3
            defaultExtensions env.fs st.output_dir st.image_dir with
        | .error e => .error (.uncaught e)
        | .ok br => .ok (generate_report (process_images_stage st1 br))

/-! ## Helper instances and lemmas -/

instance {e a : Type} [DecidableEq e] [DecidableEq a] : DecidableEq (Except e a) := fun x y =>
  match x, y with
  | .ok u, .ok v =>
    if h : u = v then isTrue (by rw [h]) else isFalse (by intro hh; cases hh; exact h rfl)
  | .error u, .error v =>
    if h : u = v then isTrue (by rw [h]) else isFalse (by intro hh; cases hh; exact h rfl)
  | .ok _, .error _ => isFalse (by intro hh; cases hh)
  | .error _, .ok _ => isFalse (by intro hh; cases hh)

theorem toList_ne_nil (s : String) (h : s ≠ "") : s.toList ≠ [] := by
  cases s with
  | mk l =>
    intro hl
    apply h
    have : l = [] := hl
    rw [this]

/-- The spec-side predicate of claim C6: a directory entry that is a
regular file whose extension, compared case-insensitively, is in the
supported set. -/
def imageMatch (E : List String) (c : String × PathNode) : Prop :=
  isFile c.2 = true ∧ ∃ x ∈ E, lowerStr (pathSuffix c.1) = lowerStr x

instance (E : List String) (c : String × PathNode) : Decidable (imageMatch E c) := by
  unfold imageMatch; infer_instance

theorem matchBool_eq_imageMatch (E : List String) (c : String × PathNode) :
    (isFile c.2 && (E.map lowerStr).contains (lowerStr (pathSuffix c.1))) =
      decide (imageMatch E c) := by
  by_cases hf : isFile c.2 = true
  · simp [imageMatch, hf, List.mem_map, eq_comm]
  · simp [imageMatch, hf]

/-- C7: the output filename round-trips the stem. For any stem `S` (which
may itself contain dots) and any dot-free final extension `e`, the default
output name is `S ++ ".txt"`, and a custom extension is appended to `S`
with a leading dot added when absent. -/
theorem generate_output_filename_spec (S e : String) (hS : S ≠ "")
    (he : e ≠ "") (hd : '.' ∉ e.toList) :
    generate_output_filename (S ++ "." ++ e) = S ++ ".txt" ∧
    ∀ ext : String, generate_output_filename (S ++ "." ++ e) ext =
      S ++ (if startsWithDot ext then ext else "." ++ ext) := by
  have hSl : S.toList ≠ [] := toList_ne_nil S hS
  have hel : e.toList ≠ [] := toList_ne_nil e he
  have hlist : (S ++ "." ++ e).toList = S.toList ++ '.' :: e.toList := by
    have h0 : (S ++ "." ++ e).toList = (S.toList ++ ['.']) ++ e.toList := rfl
    simp [h0]
  have hstem : pathStem (S ++ "." ++ e) = S := by
    unfold pathStem
    rw [hlist, stemChars_append_dot _ _ hSl hel hd]
    exact rfl
  constructor
  · simp [generate_output_filename, hstem, startsWithDot]
  · intro ext
    simp only [generate_output_filename, hstem]

theorem generate_output_filename_spec_witness :
    generate_output_filename "archive.photo.jpg" = "archive.photo" ++ ".txt" ∧
    generate_output_filename "archive.photo.jpg" "md" =
      "archive.photo" ++ (if startsWithDot "md" then "md" else "." ++ "md") := by
  have h := generate_output_filename_spec "archive.photo" "jpg"
    (by decide) (by decide) (by decide)
  exact ⟨h.1, h.2 "md"⟩

/-- C6: `discover_images` raises when the directory is missing or is not a
directory, and otherwise returns exactly the regular files directly inside
it whose extension, compared case-insensitively, is in the supported set
(entries of subdirectories excluded), sorted by filename. -/
theorem discover_images_spec (fs : FileSystem) (d : String) (E : List String) :
    (fs d = none →
      discover_images fs d E = .error ("Directory does not exist: " ++ d)) ∧
    (fs d = some .file →
      discover_images fs d E = .error ("Path is not a directory: " ++ d)) ∧
    (∀ children l, fs d = some (.dir children) →
      discover_images fs d E = .ok l →
      l.Perm ((children.filter (fun c => decide (imageMatch E c))).map Prod.fst) ∧
      l.Pairwise (fun a b => nameLe a b = true)) := by
  refine ⟨fun h => by simp [discover_images, h], fun h => by simp [discover_images, h], ?_⟩
  intro children l h hok
  simp only [discover_images, h] at hok
  have hl : l = List.insertionSort (fun a b => nameLe a b = true)
      ((children.filter (fun c => isFile c.2 &&
        (E.map lowerStr).contains (lowerStr (pathSuffix c.1)))).map Prod.fst) := by
    cases hok
    rfl
  have hfilter : children.filter (fun c => isFile c.2 &&
      (E.map lowerStr).contains (lowerStr (pathSuffix c.1))) =
      children.filter (fun c => decide (imageMatch E c)) :=
    List.filter_congr (fun c _ => matchBool_eq_imageMatch E c)
  constructor
  · rw [hl, hfilter]
    exact List.perm_insertionSort _ _
  · rw [hl]
    letI : IsTotal String (fun a b => nameLe a b = true) :=
      ⟨fun a b => lexLe_total a.toList b.toList⟩
    letI : IsTrans String (fun a b => nameLe a b = true) :=
      ⟨fun a b c => lexLe_trans a.toList b.toList c.toList⟩
    exact List.sorted_insertionSort _ _

/-- A small concrete directory exercising claim C6: two matching files in
unsorted order, one subdirectory and one non-matching file. -/
def sampleChildren : List (String × PathNode) :=
  [("b.PNG", .file), ("a.jpg", .file), ("sub", .dir [("c.jpg", .file)]),
   ("notes.txt", .file)]

/-- A one-directory filesystem for the C6 witness. -/
def sampleFs : FileSystem := fun p =>
  if p = "in" then some (PathNode.dir sampleChildren) else none

theorem discover_images_spec_witness :
    (["a.jpg", "b.PNG"] : List String).Perm
      ((sampleChildren.filter
        (fun c => decide (imageMatch [".jpg", ".png"] c))).map Prod.fst) ∧
    (["a.jpg", "b.PNG"] : List String).Pairwise (fun a b => nameLe a b = true) :=
  (discover_images_spec sampleFs "in" [".jpg", ".png"]).2.2 sampleChildren
    ["a.jpg", "b.PNG"] rfl rfl

/-- Model of Python `type(engine).__name__` for an engine instance. -/
def Engine.className : Engine → String
  | .doclingEngine _ => "DoclingEngine"
  | .llmEngine _ => "LLMEngine"
  | .apiEngine _ => "APIEngine"
  | .passthroughEngine _ => "PassthroughEngine"

/-- The engine class `EngineFactory._ENGINE_REGISTRY` assigns to each
recognized tag — the "corresponding Engine variant" of the contract. -/
def registeredEngineName (engine_type : String) : String :=
  if engine_type = "docling" then "DoclingEngine"
  else if engine_type = "llm" then "LLMEngine"
  else if engine_type = "api" then "APIEngine"
  else if engine_type = "passthrough" then "PassthroughEngine"
  else ""

/-- C5: the factory contract. An unrecognized tag fails with an error
naming the tag and the supported tags; a recognized tag whose config's
runtime variant is not the one the tag requires fails with an error naming
the required variant; otherwise the returned engine is of the variant the
registry assigns to the tag, with the config passed through unmodified. -/
theorem create_engine_contract (tag : String) (config : EngineConfig) :
    (tag ∉ supportedEngineTypes →
      create_engine tag config =
        .error (.unsupportedType tag supportedEngineTypes)) ∧
    (tag ∈ supportedEngineTypes → config.typeName ≠ requiredConfigName tag →
      create_engine tag config =
        .error (.configMismatch tag (requiredConfigName tag) config.typeName)) ∧
    (tag ∈ supportedEngineTypes → config.typeName = requiredConfigName tag →
      ∃ engine, create_engine tag config = .ok engine ∧
        engine.config = config ∧
        engine.className = registeredEngineName tag) := by
  refine ⟨?_, ?_, ?_⟩
  · intro h
    have hc : supportedEngineTypes.contains tag = false := by
      rw [← Bool.not_eq_true, List.elem_iff]
      exact h
    simp only [create_engine, hc, Bool.false_eq_true, if_false]
  · intro hmem hne
    have hc : supportedEngineTypes.contains tag = true := List.elem_iff.mpr hmem
    simp only [supportedEngineTypes, List.mem_cons, List.not_mem_nil, or_false] at hmem
    rcases hmem with h | h | h | h <;> subst h <;>
      cases config <;>
        simp_all [create_engine, EngineConfig.typeName, requiredConfigName]
  · intro hmem heq
    simp only [supportedEngineTypes, List.mem_cons, List.not_mem_nil, or_false] at hmem
    rcases hmem with h | h | h | h <;> subst h <;> cases config <;>
      first
        | exact ⟨_, rfl, rfl, rfl⟩
        | exact absurd heq (by simp [EngineConfig.typeName, requiredConfigName])

theorem create_engine_contract_witness :
    create_engine "docling" (EngineConfig.llm { model_name := "m" }) =
      .error (.configMismatch "docling" (requiredConfigName "docling")
        (EngineConfig.llm { model_name := "m" }).typeName) ∧
    create_engine "tesseract" (EngineConfig.docling {}) =
      .error (.unsupportedType "tesseract" supportedEngineTypes) ∧
    (create_engine "llm" (EngineConfig.llm { model_name := "m" })).isOk = true ∧
    (create_engine "llm" (EngineConfig.llm { model_name := "m" })).map
      Engine.className = .ok (registeredEngineName "llm") := by
  refine ⟨(create_engine_contract "docling" _).2.1 (by decide) (by decide),
    (create_engine_contract "tesseract" _).1 (by decide), ?_, ?_⟩
  · obtain ⟨engine, hev, _, _⟩ :=
      (create_engine_contract "llm" (EngineConfig.llm { model_name := "m" })).2.2
        (by decide) (by decide)
    rw [hev]
    rfl
  · obtain ⟨engine, hev, _, hcls⟩ :=
      (create_engine_contract "llm" (EngineConfig.llm { model_name := "m" })).2.2
        (by decide) (by decide)
    rw [hev]
    simp [Except.map, hcls]

/-! ## Retry-loop lemmas -/

theorem attemptLoop_success_bounds (extract : Nat → Except String String)
    (save : Nat → String → Except String String) :
    ∀ remaining attempt le0 a p,
      attemptLoop extract save remaining attempt le0 = .success a p →
      attempt ≤ a ∧ a < attempt + remaining := by
  intro remaining
  induction remaining with
  | zero => intro attempt le0 a p h; simp [attemptLoop] at h
  | succ r ih =>
    intro attempt le0 a p h
    simp only [attemptLoop] at h
    cases hx : extract attempt with
    | ok text =>
      rw [hx] at h
      dsimp only at h
      cases hs : save attempt text with
      | ok q =>
        rw [hs] at h
        dsimp only at h
        injection h with h1 h2
        omega
      | error e =>
        rw [hs] at h
        dsimp only at h
        have := ih (attempt + 1) (some e) a p h
        omega
    | error e =>
      rw [hx] at h
      dsimp only at h
      have := ih (attempt + 1) (some e) a p h
      omega

theorem attemptLoop_all_errors (extract : Nat → Except String String)
    (save : Nat → String → Except String String)
    (hE : ∀ n, ∃ m, extract n = Except.error m) :
    ∀ remaining attempt le0, 1 ≤ remaining →
      ∃ m, attemptLoop extract save remaining attempt le0 = .exhausted (some m) ∧
        extract (attempt + remaining - 1) = Except.error m := by
  intro remaining
  induction remaining with
  | zero => intro attempt le0 h; omega
  | succ r ih =>
    intro attempt le0 _
    obtain ⟨m0, hm0⟩ := hE attempt
    by_cases hr : 1 ≤ r
    · obtain ⟨m, hm, hex⟩ := ih (attempt + 1) (some m0) hr
      refine ⟨m, ?_, ?_⟩
      · simp only [attemptLoop, hm0]
        exact hm
      · have harith : attempt + 1 + r - 1 = attempt + (r + 1) - 1 := by omega
        rw [harith] at hex
        exact hex
    · have hr0 : r = 0 := by omega
      subst hr0
      refine ⟨m0, ?_, ?_⟩
      · simp only [attemptLoop, hm0]
      · simpa using hm0

theorem attemptLoop_save_fails (extract : Nat → Except String String)
    (save : Nat → String → Except String String)
    (hE : ∀ n, ∃ text, extract n = Except.ok text)
    (hS : ∀ n text, ∃ m, save n text = Except.error m) :
    ∀ remaining attempt le0, 1 ≤ remaining →
      ∃ text m, attemptLoop extract save remaining attempt le0 = .exhausted (some m) ∧
        extract (attempt + remaining - 1) = Except.ok text ∧
        save (attempt + remaining - 1) text = Except.error m := by
  intro remaining
  induction remaining with
  | zero => intro attempt le0 h; omega
  | succ r ih =>
    intro attempt le0 _
    obtain ⟨text0, ht0⟩ := hE attempt
    obtain ⟨m0, hm0⟩ := hS attempt text0
    by_cases hr : 1 ≤ r
    · obtain ⟨text, m, hm, hex, hsv⟩ := ih (attempt + 1) (some m0) hr
      refine ⟨text, m, ?_, ?_, ?_⟩
      · simp only [attemptLoop, ht0, hm0]
        exact hm
      · have harith : attempt + 1 + r - 1 = attempt + (r + 1) - 1 := by omega
        rw [harith] at hex
        exact hex
      · have harith : attempt + 1 + r - 1 = attempt + (r + 1) - 1 := by omega
        rw [harith] at hsv
        exact hsv
    · have hr0 : r = 0 := by omega
      subst hr0
      refine ⟨text0, m0, ?_, ?_, ?_⟩
      · simp only [attemptLoop, ht0, hm0]
      · simpa using ht0
      · simpa using hm0

theorem attemptLoop_fail_then_ok (extract : Nat → Except String String)
    (save : Nat → String → Except String String) :
    ∀ j remaining attempt le0 text p,
      (∀ n, attempt ≤ n → n < attempt + j → ∃ m, extract n = Except.error m) →
      extract (attempt + j) = Except.ok text →
      save (attempt + j) text = Except.ok p →
      j < remaining →
      attemptLoop extract save remaining attempt le0 = .success (attempt + j) p := by
  intro j
  induction j with
  | zero =>
    intro remaining attempt le0 text p _ hok hsave hlt
    obtain ⟨r, rfl⟩ : ∃ r, remaining = r + 1 := ⟨remaining - 1, by omega⟩
    rw [Nat.add_zero] at hok hsave
    simp only [attemptLoop, hok, hsave, Nat.add_zero]
  | succ k ih =>
    intro remaining attempt le0 text p herr hok hsave hlt
    obtain ⟨r, rfl⟩ : ∃ r, remaining = r + 1 := ⟨remaining - 1, by omega⟩
    obtain ⟨m0, hm0⟩ := herr attempt (Nat.le_refl _) (by omega)
    have harith : attempt + 1 + k = attempt + (k + 1) := by omega
    have hok2 : extract (attempt + 1 + k) = Except.ok text := by rw [harith]; exact hok
    have hsave2 : save (attempt + 1 + k) text = Except.ok p := by rw [harith]; exact hsave
    have hrec := ih r (attempt + 1) (some m0) text p
      (fun n h1 h2 => herr n (by omega) (by omega)) hok2 hsave2 (by omega)
    simp only [attemptLoop, hm0]
    rw [hrec, harith]

theorem process_single_image_of_loop_success
    (extract : Nat → Except String String)
    (save : Nat → String → Except String String) (max_retries : Nat)
    (image_path : String) (t : Rat) (a : Nat) (p : String)
    (hout : attemptLoop extract save max_retries 1 none = .success a p) :
    process_single_image extract save max_retries image_path t =
      { image_path := image_path, success := true, output_path := some p,
        error := none, attempts := a, processing_time := t } := by
  rw [process_single_image, hout]

/-- Model of the Python fallback `str(last_error) if last_error else
"Unknown error"`. -/
def lastErrorMsg : Option String → String
  | some e => e
  | none => "Unknown error"

theorem process_single_image_of_loop_exhausted
    (extract : Nat → Except String String)
    (save : Nat → String → Except String String) (max_retries : Nat)
    (image_path : String) (t : Rat) (le : Option String)
    (hout : attemptLoop extract save max_retries 1 none = .exhausted le) :
    process_single_image extract save max_retries image_path t =
      { image_path := image_path, success := false, output_path := none,
        error := some (lastErrorMsg le),
        attempts := max_retries, processing_time := t } := by
  rw [process_single_image, hout]
  cases le <;> rfl

/-- C2 (amended): for every engine and write behaviour and every
`max_retries ≥ 1`, the result of `process_single_image` has `output_path`
present iff `success`, `error` present iff not `success`, and
`1 ≤ attempts ≤ max_retries`. (For `max_retries = 0` the code returns
`attempts = 0`, breaking the lower bound — see the counterexample.) -/
theorem process_single_image_invariants (extract : Nat → Except String String)
    (save : Nat → String → Except String String) (max_retries : Nat)
    (image_path : String) (t : Rat) (h : 1 ≤ max_retries) :
    ((process_single_image extract save max_retries image_path t).output_path.isSome
      ↔ (process_single_image extract save max_retries image_path t).success = true) ∧
    ((process_single_image extract save max_retries image_path t).error.isSome
      ↔ (process_single_image extract save max_retries image_path t).success = false) ∧
    1 ≤ (process_single_image extract save max_retries image_path t).attempts ∧
    (process_single_image extract save max_retries image_path t).attempts ≤ max_retries := by
  cases hout : attemptLoop extract save max_retries 1 none with
  | success a p =>
    have hb := attemptLoop_success_bounds extract save max_retries 1 none a p hout
    rw [process_single_image_of_loop_success extract save max_retries image_path t a p hout]
    refine ⟨by simp, by simp, ?_, ?_⟩
    · show 1 ≤ a
      omega
    · show a ≤ max_retries
      omega
  | exhausted le =>
    rw [process_single_image_of_loop_exhausted extract save max_retries image_path t le hout]
    exact ⟨by simp, by simp, h, Nat.le_refl _⟩

/-- C2 counterexample: with `max_retries = 0` (allowed by the spec's
"non-negative integer"), the returned result has `attempts = 0`, violating
`1 ≤ attempts`. -/
theorem process_single_image_attempts_zero :
    ¬(1 ≤ (process_single_image (fun _ => Except.ok "text")
      (fun _ _ => Except.ok "out") 0 "img.jpg" 0).attempts) := by decide

theorem process_single_image_invariants_witness :
    ((process_single_image (fun _ => Except.ok "text") (fun _ _ => Except.ok "out") 3 "img.jpg" 0).output_path.isSome
      ↔ (process_single_image (fun _ => Except.ok "text") (fun _ _ => Except.ok "out") 3 "img.jpg" 0).success = true) ∧
    ((process_single_image (fun _ => Except.ok "text") (fun _ _ => Except.ok "out") 3 "img.jpg" 0).error.isSome
      ↔ (process_single_image (fun _ => Except.ok "text") (fun _ _ => Except.ok "out") 3 "img.jpg" 0).success = false) ∧
    1 ≤ (process_single_image (fun _ => Except.ok "text") (fun _ _ => Except.ok "out") 3 "img.jpg" 0).attempts ∧
    (process_single_image (fun _ => Except.ok "text") (fun _ _ => Except.ok "out") 3 "img.jpg" 0).attempts ≤ 3 :=
  process_single_image_invariants (fun _ => Except.ok "text")
    (fun _ _ => Except.ok "out") 3 "img.jpg" 0 (by decide)

/-- C3: if the engine raises on attempts `1..k` and extraction (and the
output write) succeed on attempt `k + 1 ≤ max_retries`, the result is
successful with `attempts = k + 1`. -/
theorem process_single_image_fail_then_ok (extract : Nat → Except String String)
    (save : Nat → String → Except String String) (max_retries k : Nat)
    (image_path text p : String) (t : Rat) (hk : k < max_retries)
    (herr : ∀ n, 1 ≤ n → n ≤ k → ∃ m, extract n = Except.error m)
    (hok : extract (k + 1) = Except.ok text)
    (hsave : save (k + 1) text = Except.ok p) :
    (process_single_image extract save max_retries image_path t).success = true ∧
    (process_single_image extract save max_retries image_path t).attempts = k + 1 := by
  have hok2 : extract (1 + k) = Except.ok text := by rw [Nat.add_comm]; exact hok
  have hsave2 : save (1 + k) text = Except.ok p := by rw [Nat.add_comm]; exact hsave
  have hloop := attemptLoop_fail_then_ok extract save k max_retries 1 none text p
    (fun n h1 h2 => herr n h1 (by omega)) hok2 hsave2 hk
  rw [process_single_image_of_loop_success extract save max_retries image_path t
    (1 + k) p hloop]
  exact ⟨rfl, by dsimp; omega⟩

theorem process_single_image_fail_then_ok_witness :
    (process_single_image (fun n => if n ≤ 2 then Except.error "boom" else Except.ok "text")
      (fun _ _ => Except.ok "out") 5 "img.jpg" 0).success = true ∧
    (process_single_image (fun n => if n ≤ 2 then Except.error "boom" else Except.ok "text")
      (fun _ _ => Except.ok "out") 5 "img.jpg" 0).attempts = 2 + 1 :=
  process_single_image_fail_then_ok
    (fun n => if n ≤ 2 then Except.error "boom" else Except.ok "text")
    (fun _ _ => Except.ok "out") 5 2 "img.jpg" "text" "out" 0 (by decide)
    (fun n h1 h2 => ⟨"boom", by simp [h2]⟩)
    (by decide) (by decide)

/-- C4: for an engine that raises on every attempt, the result is failed
with `attempts = max_retries`, `output_path = None`, and `error` the last
failure's message — the generic "Unknown error" only in the degenerate
`max_retries = 0` case, where no attempt ever ran. -/
theorem process_single_image_all_fail (extract : Nat → Except String String)
    (save : Nat → String → Except String String) (max_retries : Nat)
    (image_path : String) (t : Rat)
    (hE : ∀ n, ∃ m, extract n = Except.error m) :
    (process_single_image extract save max_retries image_path t).success = false ∧
    (process_single_image extract save max_retries image_path t).attempts = max_retries ∧
    (process_single_image extract save max_retries image_path t).output_path = none ∧
    (1 ≤ max_retries → ∃ m, extract max_retries = Except.error m ∧
      (process_single_image extract save max_retries image_path t).error = some m) ∧
    (max_retries = 0 →
      (process_single_image extract save max_retries image_path t).error =
        some "Unknown error") := by
  by_cases hmr : 1 ≤ max_retries
  · obtain ⟨m, hloop, hex⟩ :=
      attemptLoop_all_errors extract save hE max_retries 1 none hmr
    have harith : 1 + max_retries - 1 = max_retries := by omega
    rw [harith] at hex
    rw [process_single_image_of_loop_exhausted extract save max_retries image_path t
      (some m) hloop]
    exact ⟨rfl, rfl, rfl, fun _ => ⟨m, hex, rfl⟩, fun h0 => by omega⟩
  · have h0 : max_retries = 0 := by omega
    subst h0
    rw [process_single_image_of_loop_exhausted extract save 0 image_path t none rfl]
    exact ⟨rfl, rfl, rfl, fun h => by omega, fun _ => rfl⟩

theorem process_single_image_all_fail_witness :
    (process_single_image (fun n => Except.error ("fail " ++ toString n))
      (fun _ _ => Except.ok "out") 3 "img.jpg" 0).success = false ∧
    (process_single_image (fun n => Except.error ("fail " ++ toString n))
      (fun _ _ => Except.ok "out") 3 "img.jpg" 0).attempts = 3 ∧
    (process_single_image (fun n => Except.error ("fail " ++ toString n))
      (fun _ _ => Except.ok "out") 3 "img.jpg" 0).output_path = none ∧
    ((1 : Nat) ≤ 3 → ∃ m, (fun n => Except.error ("fail " ++ toString n)) 3 =
      (Except.error m : Except String String) ∧
      (process_single_image (fun n => Except.error ("fail " ++ toString n))
        (fun _ _ => Except.ok "out") 3 "img.jpg" 0).error = some m) ∧
    ((3 : Nat) = 0 →
      (process_single_image (fun n => Except.error ("fail " ++ toString n))
        (fun _ _ => Except.ok "out") 3 "img.jpg" 0).error = some "Unknown error") :=
  process_single_image_all_fail (fun n => Except.error ("fail " ++ toString n))
    (fun _ _ => Except.ok "out") 3 "img.jpg" 0
    (fun n => ⟨"fail " ++ toString n, rfl⟩)

/-- C10: a failure in the output write after a successful extraction is
retryable. With an engine that always succeeds and a write that always
fails, every attempt re-runs `extract_text`, and the final result is
failed with `attempts = max_retries` and `error` the write error of the
last attempt. -/
theorem process_single_image_write_failure (extract : Nat → Except String String)
    (save : Nat → String → Except String String) (max_retries : Nat)
    (image_path : String) (t : Rat) (hmr : 1 ≤ max_retries)
    (hE : ∀ n, ∃ text, extract n = Except.ok text)
    (hS : ∀ n text, ∃ m, save n text = Except.error m) :
    (process_single_image extract save max_retries image_path t).success = false ∧
    (process_single_image extract save max_retries image_path t).attempts = max_retries ∧
    (process_single_image extract save max_retries image_path t).output_path = none ∧
    ∃ text m, extract max_retries = Except.ok text ∧
      save max_retries text = Except.error m ∧
      (process_single_image extract save max_retries image_path t).error = some m := by
  obtain ⟨text, m, hloop, hex, hsv⟩ :=
    attemptLoop_save_fails extract save hE hS max_retries 1 none hmr
  have harith : 1 + max_retries - 1 = max_retries := by omega
  rw [harith] at hex hsv
  rw [process_single_image_of_loop_exhausted extract save max_retries image_path t
    (some m) hloop]
  exact ⟨rfl, rfl, rfl, text, m, hex, hsv, rfl⟩

theorem process_single_image_write_failure_witness :
    (process_single_image (fun _ => Except.ok "text")
      (fun _ _ => Except.error "disk full") 2 "img.jpg" 0).success = false ∧
    (process_single_image (fun _ => Except.ok "text")
      (fun _ _ => Except.error "disk full") 2 "img.jpg" 0).attempts = 2 ∧
    (process_single_image (fun _ => Except.ok "text")
      (fun _ _ => Except.error "disk full") 2 "img.jpg" 0).output_path = none ∧
    ∃ text m, (fun _ : Nat => (Except.ok "text" : Except String String)) 2 =
        Except.ok text ∧
      (fun _ : Nat => fun _ : String =>
        (Except.error "disk full" : Except String String)) 2 text = Except.error m ∧
      (process_single_image (fun _ => Except.ok "text")
        (fun _ _ => Except.error "disk full") 2 "img.jpg" 0).error = some m :=
  process_single_image_write_failure (fun _ => Except.ok "text")
    (fun _ _ => Except.error "disk full") 2 "img.jpg" 0 (by decide)
    (fun _ => ⟨"text", rfl⟩) (fun _ _ => ⟨"disk full", rfl⟩)

/-! ## Batch aggregation invariants -/

theorem batchStep_length (extract : String → Nat → Except String String)
    (save : String → Nat → String → Except String String)
    (itemTime : String → Rat) (max_retries : Nat)
    (acc : List ProcessingResult × Nat × Nat) (image : String) :
    (batchStep extract save itemTime max_retries acc image).1.length =
      acc.1.length + 1 := by
  simp [batchStep]

theorem batchStep_counters (extract : String → Nat → Except String String)
    (save : String → Nat → String → Except String String)
    (itemTime : String → Rat) (max_retries : Nat)
    (acc : List ProcessingResult × Nat × Nat) (image : String) :
    (batchStep extract save itemTime max_retries acc image).2.1 +
      (batchStep extract save itemTime max_retries acc image).2.2 =
      acc.2.1 + acc.2.2 + 1 := by
  by_cases hs : (process_single_image (extract image) (save image) max_retries
      image (itemTime image)).success = true <;>
    simp [batchStep, hs] <;> omega

theorem batchFold_invariant (extract : String → Nat → Except String String)
    (save : String → Nat → String → Except String String)
    (itemTime : String → Rat) (max_retries : Nat) :
    ∀ (l : List String) (acc : List ProcessingResult × Nat × Nat),
      (l.foldl (batchStep extract save itemTime max_retries) acc).1.length =
        acc.1.length + l.length ∧
      (l.foldl (batchStep extract save itemTime max_retries) acc).2.1 +
        (l.foldl (batchStep extract save itemTime max_retries) acc).2.2 =
        acc.2.1 + acc.2.2 + l.length := by
  intro l
  induction l with
  | nil => intro acc; exact ⟨by simp, by simp⟩
  | cons x xs ih =>
    intro acc
    have hstep1 := batchStep_length extract save itemTime max_retries acc x
    have hstep2 := batchStep_counters extract save itemTime max_retries acc x
    have h := ih (batchStep extract save itemTime max_retries acc x)
    constructor
    · rw [List.foldl_cons, h.1, hstep1]
      simp
      omega
    · rw [List.foldl_cons, h.2, hstep2]
      simp
      omega

/-- C8: every `BatchReport` returned by `process_batch` satisfies
`successful + failed = total_images = len(results)`, and its
`success_rate` is `successful / total_images`, with `0` when
`total_images = 0`. -/
theorem process_batch_report_invariants (extract : String → Nat → Except String String)
    (save : String → Nat → String → Except String String)
    (itemTime : String → Rat) (batchTime : Rat) (max_retries : Nat)
    (supported_extensions : List String) (fs : FileSystem)
    (output_dir image_dir : String) (report : BatchReport)
    (h : process_batch extract save itemTime batchTime max_retries
      supported_extensions fs output_dir image_dir = .ok report) :
    report.successful + report.failed = report.total_images ∧
    report.total_images = report.results.length ∧
    (report.total_images = 0 → report.success_rate = 0) ∧
    (report.total_images ≠ 0 →
      report.success_rate = (report.successful : Rat) / (report.total_images : Rat)) := by
  rw [process_batch] at h
  cases hens : ensure_output_directory fs output_dir with
  | error e => rw [hens] at h; cases h
  | ok u =>
    rw [hens] at h
    cases hdisc : discover_images fs image_dir supported_extensions with
    | error e => rw [hdisc] at h; cases h
    | ok image_files =>
      rw [hdisc] at h
      dsimp only at h
      injection h with h
      have hinv := batchFold_invariant extract save itemTime max_retries image_files
        ([], 0, 0)
      simp only [List.length_nil, Nat.zero_add, Nat.add_zero] at hinv
      subst h
      refine ⟨?_, ?_, ?_, ?_⟩
      · show (image_files.foldl (batchStep extract save itemTime max_retries)
          ([], 0, 0)).2.1 + (image_files.foldl
          (batchStep extract save itemTime max_retries) ([], 0, 0)).2.2 =
          image_files.length
        omega
      · show image_files.length = (image_files.foldl
          (batchStep extract save itemTime max_retries) ([], 0, 0)).1.length
        omega
      · intro h0
        simp only [BatchReport.success_rate]
        rw [if_pos h0]
      · intro h0
        simp only [BatchReport.success_rate]
        rw [if_neg h0]

/-- A one-image filesystem for the C8 witness. -/
def oneImageFs : FileSystem := fun p =>
  if p = "in8" then some (PathNode.dir [("a.jpg", PathNode.file)]) else none

/-- The one result produced in the C8 witness batch. -/
def sampleResult : ProcessingResult :=
  { image_path := "a.jpg"
    success := true
    output_path := some "a.txt"
    error := none
    attempts := 1
    processing_time := 2 }

/-- The report the C8 witness batch produces. -/
def sampleBatchReport : BatchReport :=
  { total_images := 1
    successful := 1
    failed := 0
    processing_time := 7
    results := [sampleResult] }

theorem process_batch_report_invariants_witness :
    sampleBatchReport.successful + sampleBatchReport.failed =
      sampleBatchReport.total_images ∧
    sampleBatchReport.total_images = sampleBatchReport.results.length ∧
    (sampleBatchReport.total_images = 0 → sampleBatchReport.success_rate = 0) ∧
    (sampleBatchReport.total_images ≠ 0 →
      sampleBatchReport.success_rate = (sampleBatchReport.successful : Rat) /
        (sampleBatchReport.total_images : Rat)) :=
  process_batch_report_invariants
    (fun _ _ => Except.ok "text") (fun _ _ _ => Except.ok "a.txt")
    (fun _ => 2) 7 3 [".jpg"] oneImageFs "out8" "in8" sampleBatchReport
    (by rfl)

/-! ## Pipeline report provenance -/

theorem process_batch_batchTime (extract : String → Nat → Except String String)
    (save : String → Nat → String → Except String String)
    (itemTime : String → Rat) (b t : Rat) (max_retries : Nat)
    (supported_extensions : List String) (fs : FileSystem)
    (output_dir image_dir : String) :
    process_batch extract save itemTime t max_retries supported_extensions fs
      output_dir image_dir =
    (process_batch extract save itemTime b max_retries supported_extensions fs
      output_dir image_dir).map (fun r => { r with processing_time := t }) := by
  cases hens : ensure_output_directory fs output_dir with
  | error e => simp [process_batch, hens, Except.map]
  | ok u =>
    cases hdisc : discover_images fs image_dir supported_extensions with
    | error e => simp [process_batch, hens, hdisc, Except.map]
    | ok files => simp [process_batch, hens, hdisc, Except.map]

theorem process_images_stage_time (st : FlowState) (br : BatchReport) (t : Rat) :
    process_images_stage st { br with processing_time := t } =
      process_images_stage st br := rfl

theorem generate_report_time (st : FlowState) :
    (generate_report st).processing_time =
      ((generate_report st).results.map (fun r => r.processing_time)).sum := rfl

/-- C9: the pipeline's terminal report has `processing_time` equal to the
sum of the per-item `processing_time` values in its results, and the
wall-clock batch duration measured by the batch processor does not reach
the terminal report: changing it does not change the run's output. -/
theorem pipeline_report_time (env : FlowEnv) (st : FlowState) :
    (∀ report, run_pipeline env st = .ok report →
      report.processing_time =
        (report.results.map (fun r => r.processing_time)).sum) ∧
    (∀ t, run_pipeline { env with batchTime := t } st = run_pipeline env st) := by
  constructor
  · intro report h
    rw [run_pipeline] at h
    cases h1 : init_workflow env.fs st with
    | error e => rw [h1] at h; cases h
    | ok u1 =>
      rw [h1] at h
      cases h2 : create_engine_stage env.mkConfig env.validateRes st.engine_type with
      | error e => rw [h2] at h; cases h
      | ok engine =>
        rw [h2] at h
        cases h3 : discover_stage env.fs st with
        | error e => rw [h3] at h; cases h
        | ok st1 =>
          rw [h3] at h
          cases h4 : process_batch env.extract env.save env.itemTime env.batchTime 3
              defaultExtensions env.fs st.output_dir st.image_dir with
          | error e => rw [h4] at h; cases h
          | ok br =>
            rw [h4] at h
            dsimp only at h
            injection h with h
            subst h
            exact generate_report_time _
  · intro t
    rw [run_pipeline, run_pipeline]
    dsimp only
    cases h1 : init_workflow env.fs st with
    | error e => rfl
    | ok u1 =>
      cases h2 : create_engine_stage env.mkConfig env.validateRes st.engine_type with
      | error e => rfl
      | ok engine =>
        cases h3 : discover_stage env.fs st with
        | error e => rfl
        | ok st1 =>
          rw [process_batch_batchTime env.extract env.save env.itemTime
            env.batchTime t 3 defaultExtensions env.fs st.output_dir st.image_dir]
          cases h4 : process_batch env.extract env.save env.itemTime env.batchTime 3
              defaultExtensions env.fs st.output_dir st.image_dir with
          | error e => rfl
          | ok br =>
            dsimp only [Except.map]
            rw [process_images_stage_time]

/-- A one-image filesystem for the C9 witness. -/
def flowFs : FileSystem := fun p =>
  if p = "in9" then some (PathNode.dir [("a.jpg", PathNode.file)]) else none

/-- The C9 witness run environment: passthrough-style engine that always
succeeds, output write that always succeeds. -/
def flowEnv : FlowEnv :=
  { fs := flowFs
    extract := fun _ _ => Except.ok "text"
    save := fun _ _ _ => Except.ok "a.txt"
    itemTime := fun _ => 2
    batchTime := 5
    mkConfig := Except.ok (EngineConfig.passthrough {})
    validateRes := Except.ok () }

/-- The C9 witness initial state. -/
def flowSt : FlowState :=
  { image_dir := "in9", output_dir := "out9", engine_type := "passthrough" }

/-- The per-item results of the C9 witness run. -/
def flowResults : List ProcessingResult :=
  [{ image_path := "a.jpg", success := true, output_path := some "a.txt",
     error := none, attempts := 1, processing_time := 2 }]

/-- The terminal report of the C9 witness run. -/
def flowReport : BatchReport :=
  { total_images := 1
    successful := 1
    failed := 0
    processing_time := (flowResults.map (fun r => r.processing_time)).sum
    results := flowResults }

theorem pipeline_report_time_witness :
    flowReport.processing_time =
      (flowReport.results.map (fun r => r.processing_time)).sum ∧
    run_pipeline { flowEnv with batchTime := 99 } flowSt =
      run_pipeline flowEnv flowSt :=
  ⟨(pipeline_report_time flowEnv flowSt).1 flowReport (by rfl),
   (pipeline_report_time flowEnv flowSt).2 99⟩

/-! ## Empty input directory and the initialize stage -/

theorem init_workflow_empty_dir (fs : FileSystem) (st : FlowState)
    (hdir : fs st.image_dir = some (.dir []))
    (hct : supportedEngineTypes.contains st.engine_type = true) :
    init_workflow fs st = .error (.validationNoImages st.image_dir) := by
  simp [init_workflow, hdir, hct, discover_images]
  exact List.elem_iff.mp hct

/-- C1 (amended): an end-to-end pipeline run whose input directory exists
but contains no entries (and whose engine tag is recognized) aborts in the
initialize stage with the no-images `ValidationError`; it does not return
a `BatchReport`. -/
theorem run_pipeline_empty_dir (env : FlowEnv) (st : FlowState)
    (hdir : env.fs st.image_dir = some (.dir []))
    (heng : st.engine_type ∈ supportedEngineTypes) :
    run_pipeline env st = .error (.validationNoImages st.image_dir) := by
  have hct : supportedEngineTypes.contains st.engine_type = true :=
    List.elem_iff.mpr heng
  rw [run_pipeline, init_workflow_empty_dir env.fs st hdir hct]

/-- An empty input directory for the C1 counterexample. -/
def emptyDirFs : FileSystem := fun p =>
  if p = "in1" then some (PathNode.dir []) else none

/-- The C1 counterexample environment: everything downstream of
initialization would succeed, so only the initialize validation can stop
the run. -/
def emptyDirEnv : FlowEnv :=
  { fs := emptyDirFs
    extract := fun _ _ => Except.ok "text"
    save := fun _ _ _ => Except.ok "out.txt"
    itemTime := fun _ => 0
    batchTime := 0
    mkConfig := Except.ok (EngineConfig.passthrough {})
    validateRes := Except.ok () }

/-- The C1 counterexample initial state. -/
def emptyDirSt : FlowState :=
  { image_dir := "in1", output_dir := "out1", engine_type := "passthrough" }

/-- C1 counterexample: over an empty input directory, the run does not
complete with a zero report — it aborts in the initialize stage with the
no-images `ValidationError`, so no `BatchReport` is produced. -/
theorem run_pipeline_empty_dir_aborts :
    run_pipeline emptyDirEnv emptyDirSt =
      .error (FlowError.validationNoImages "in1") ∧
    (run_pipeline emptyDirEnv emptyDirSt).isOk = false :=
  ⟨rfl, rfl⟩

theorem run_pipeline_empty_dir_witness :
    run_pipeline emptyDirEnv emptyDirSt =
      .error (.validationNoImages emptyDirSt.image_dir) :=
  run_pipeline_empty_dir emptyDirEnv emptyDirSt (by rfl) (by decide)
